import Mathlib

/-!
Shallow embedding of the armor-stand keyframe animation editor
(`src/pages/Animate.tsx` and its variants).  JavaScript numbers are
modelled as rationals (`ℚ`); JS array indices as `Int` (the editor's
`currentFrame` state is an arbitrary JS number set via `setCurrentFrame`);
JS `%` on nonnegative dividends agrees with `Int.tmod`, which is used for
the playback advance.  All React state updates in the source are
non-mutating (spread copies), so state transitions are pure functions
from editor state to editor state.
-/

namespace Animate

/-- A triple of rotation angles in degrees, one per axis
(`{ x: number; y: number; z: number }` in the source). -/
structure Vec3 where
  x : ℚ
  y : ℚ
  z : ℚ
deriving DecidableEq

/-- The three rotation axes (`'x' | 'y' | 'z'` in the source). -/
inductive Axis where
  | x
  | y
  | z
deriving DecidableEq

/-- The five named joints (`keyof KeyFrame` in the source). -/
inductive Joint where
  | head
  | left_arm
  | right_arm
  | left_leg
  | right_leg
deriving DecidableEq

/-- The `KeyFrame` interface: a pose mapping each of the five joints to
its angles. -/
structure KeyFrame where
  head : Vec3
  left_arm : Vec3
  right_arm : Vec3
  left_leg : Vec3
  right_leg : Vec3
deriving DecidableEq

/-- `defaultFrame`: the neutral pose, all angles zero. -/
def defaultFrame : KeyFrame :=
  { head := ⟨0, 0, 0⟩
    left_arm := ⟨0, 0, 0⟩
    right_arm := ⟨0, 0, 0⟩
    left_leg := ⟨0, 0, 0⟩
    right_leg := ⟨0, 0, 0⟩ }

/-- Read one axis of a `Vec3`. -/
def Vec3.axis (v : Vec3) : Axis → ℚ
  | Axis.x => v.x
  | Axis.y => v.y
  | Axis.z => v.z

/-- `{ ...v, [axis]: value }`: replace one axis of a `Vec3`. -/
def Vec3.setAxis (v : Vec3) : Axis → ℚ → Vec3
  | Axis.x, q => { v with x := q }
  | Axis.y, q => { v with y := q }
  | Axis.z, q => { v with z := q }

/-- `frame[part]`: read one joint of a pose. -/
def KeyFrame.joint (f : KeyFrame) : Joint → Vec3
  | Joint.head => f.head
  | Joint.left_arm => f.left_arm
  | Joint.right_arm => f.right_arm
  | Joint.left_leg => f.left_leg
  | Joint.right_leg => f.right_leg

/-- `{ ...frame, [part]: w }`: replace one joint of a pose. -/
def KeyFrame.setJoint (f : KeyFrame) : Joint → Vec3 → KeyFrame
  | Joint.head, w => { f with head := w }
  | Joint.left_arm, w => { f with left_arm := w }
  | Joint.right_arm, w => { f with right_arm := w }
  | Joint.left_leg, w => { f with left_leg := w }
  | Joint.right_leg, w => { f with right_leg := w }

/-- `{ ...frame, [part]: { ...frame[part], [axis]: value } }`:
the pose update performed by `updateCurrentFrame`. -/
def updateKeyFrame (f : KeyFrame) (part : Joint) (axis : Axis) (value : ℚ) : KeyFrame :=
  f.setJoint part ((f.joint part).setAxis axis value)

/-- The React state of the `Animate` component. -/
structure EditorState where
  frames : List KeyFrame
  currentFrame : Int
  animationName : String
  interval : ℚ
  isPlaying : Bool
deriving DecidableEq

/-- The initial component state: one neutral keyframe, index 0,
name `"wave"`, interval `10`, not playing. -/
def initState : EditorState :=
  { frames := [defaultFrame]
    currentFrame := 0
    animationName := "wave"
    interval := 10
    isPlaying := false }

/-- JS array indexing `frames[i]`: `undefined` (here `none`) when `i` is
negative or at least the length. -/
def getFrame (fs : List KeyFrame) (i : Int) : Option KeyFrame :=
  if 0 ≤ i then fs[i.toNat]? else none

/-- `const currentFrameData = frames[currentFrame] || defaultFrame`. -/
def currentFrameData (s : EditorState) : KeyFrame :=
  (getFrame s.frames s.currentFrame).getD defaultFrame

/-- `addKeyFrame`: `setFrames([...frames, { ...frames[currentFrame] || defaultFrame }]);
setCurrentFrame(frames.length)`. -/
def addKeyFrame (s : EditorState) : EditorState :=
  { s with
    frames := s.frames ++ [(getFrame s.frames s.currentFrame).getD defaultFrame]
    currentFrame := (s.frames.length : Int) }

/-- `updateCurrentFrame(part, axis, value)`: copies the frames array and
replaces the active keyframe with a spread-updated copy.  When
`currentFrame` equals the length, the source's
`newFrames[currentFrame] = { ...defaultFrame }` appends a fresh default
frame before updating it; a larger index would create a sparse JS array
(holes) and a negative index a non-element property, neither of which
changes the array's elements, so those cases leave `frames` unchanged
here. -/
def updateCurrentFrame (s : EditorState) (part : Joint) (axis : Axis) (value : ℚ) :
    EditorState :=
  match getFrame s.frames s.currentFrame with
  | some f =>
      { s with frames := s.frames.set s.currentFrame.toNat (updateKeyFrame f part axis value) }
  | none =>
      if s.currentFrame = (s.frames.length : Int) then
        { s with frames := s.frames ++ [updateKeyFrame defaultFrame part axis value] }
      else
        s

/-- `setCurrentFrame(i)` from the timeline slider. -/
def selectFrame (s : EditorState) (i : Int) : EditorState :=
  { s with currentFrame := i }

/-- Read back one angle: frame `i`, joint `part`, axis `axis`
(`none` when frame `i` does not exist). -/
def entry (s : EditorState) (i : Nat) (part : Joint) (axis : Axis) : Option ℚ :=
  (s.frames[i]?).map fun f => (f.joint part).axis axis

/-- One animation's fields in the exported document:
`{ interval: Math.max(1, Math.floor(interval)), loop: true, steps: cleanedFrames }`. -/
structure AnimationEntry where
  interval : Int
  loop : Bool
  steps : List KeyFrame
deriving DecidableEq

/-- The exported document `{ animations: { [animationName]: ... } }`; the
`animations` object has the animation name as its single computed key. -/
structure ExportDoc where
  animations : List (String × AnimationEntry)
deriving DecidableEq

/-- `cleanedFrames`: `frames.map(frame => ({ head: { x: frame.head.x, ... }, ... }))` —
each keyframe rebuilt field by field into plain numeric fields. -/
def cleanedFrames (fs : List KeyFrame) : List KeyFrame :=
  fs.map fun f =>
    { head := ⟨f.head.x, f.head.y, f.head.z⟩
      left_arm := ⟨f.left_arm.x, f.left_arm.y, f.left_arm.z⟩
      right_arm := ⟨f.right_arm.x, f.right_arm.y, f.right_arm.z⟩
      left_leg := ⟨f.left_leg.x, f.left_leg.y, f.left_leg.z⟩
      right_leg := ⟨f.right_leg.x, f.right_leg.y, f.right_leg.z⟩ }

/-- The `animation` object built inside `exportAnimation`, with
`interval: Math.max(1, Math.floor(interval))`. -/
def buildDocument (s : EditorState) : ExportDoc :=
  { animations :=
      [(s.animationName,
        { interval := max 1 ⌊s.interval⌋
          loop := true
          steps := cleanedFrames s.frames })] }

/-- A produced download: file name and serialized contents. -/
structure Download where
  filename : String
  contents : String
deriving DecidableEq

/-- `exportAnimation`: builds the document, serializes with `yaml.dump`
and triggers a download of `animations.yml`; the whole body is wrapped in
`try { ... } catch (error) { console.error(...) }`, and no state setter is
called, so on a serialization failure (modelled by `dump` returning
`none`, e.g. on a non-finite number) nothing is downloaded and the editor
state is returned unchanged. -/
def exportAnimation (dump : ExportDoc → Option String) (s : EditorState) :
    EditorState × Option Download :=
  match dump (buildDocument s) with
  | some str => (s, some { filename := "animations.yml", contents := str })
  | none => (s, none)

/-- The data captured by the running playback loop: the closure's local
`frameIndex` and the length of the `frames` array it closed over at the
moment playback started. -/
structure LoopState where
  frameIndex : Int
  len : Nat
deriving DecidableEq

/-- Editor state plus the scheduled playback callback (`animationRef`
together with the `animate` closure); `none` when no advance is pending. -/
structure SysState where
  editor : EditorState
  loop : Option LoopState
deriving DecidableEq

/-- The user and scheduler events the component reacts to.  `tick` is a
scheduled `requestAnimationFrame` callback firing; `playPause` is the
Play/Pause button (`playAnimation`). -/
inductive Event where
  | selectFrame (i : Int)
  | updateJoint (part : Joint) (axis : Axis) (value : ℚ)
  | addKey
  | doExport
  | playPause
  | tick
deriving DecidableEq

/-- One playback advance: `frameIndex = (frameIndex + 1) % frames.length`
on the captured data (JS `%` is truncated remainder, `Int.tmod`). -/
def advanceLoop (l : LoopState) : LoopState :=
  { l with frameIndex := (l.frameIndex + 1).tmod (l.len : Int) }

/-- The sequential small-step semantics of the component.  `playPause`
while playing cancels the pending callback (`cancelAnimationFrame`) and
clears the playing flag; while stopped it sets the flag and schedules the
`animate` closure, which captures the current `frameIndex` and the
current `frames` array.  `tick` with no pending callback does nothing.
`doExport` never calls a state setter, so it leaves the state unchanged
(`exportAnimation` returns its state component unchanged). -/
def step (t : SysState) : Event → SysState
  | Event.selectFrame i => { t with editor := selectFrame t.editor i }
  | Event.updateJoint part axis v => { t with editor := updateCurrentFrame t.editor part axis v }
  | Event.addKey => { t with editor := addKeyFrame t.editor }
  | Event.doExport => t
  | Event.playPause =>
      if t.editor.isPlaying then
        { editor := { t.editor with isPlaying := false }, loop := none }
      else
        { editor := { t.editor with isPlaying := true }
          loop := some { frameIndex := t.editor.currentFrame, len := t.editor.frames.length } }
  | Event.tick =>
      match t.loop with
      | none => t
      | some l =>
          let l' := advanceLoop l
          { editor := { t.editor with currentFrame := l'.frameIndex }, loop := some l' }

/-- Run a sequence of events from a system state. -/
def run (t : SysState) (es : List Event) : SysState :=
  es.foldl step t

/-- The initial system: initial component state, nothing scheduled. -/
def initSys : SysState :=
  { editor := initState, loop := none }

/-- Number of playback advances in an event sequence. -/
def ticks (es : List Event) : Nat :=
  es.countP fun e => match e with
    | Event.tick => true
    | _ => false

/-! ### Helper lemmas -/

theorem Vec3.axis_setAxis_self (v : Vec3) (a : Axis) (q : ℚ) :
    (v.setAxis a q).axis a = q := by
  cases a <;> rfl

theorem Vec3.axis_setAxis_ne (v : Vec3) {a a' : Axis} (q : ℚ) (h : a' ≠ a) :
    (v.setAxis a q).axis a' = v.axis a' := by
  cases a <;> cases a' <;> simp_all [Vec3.setAxis, Vec3.axis]

theorem KeyFrame.joint_setJoint_self (f : KeyFrame) (j : Joint) (w : Vec3) :
    (f.setJoint j w).joint j = w := by
  cases j <;> rfl

theorem KeyFrame.joint_setJoint_ne (f : KeyFrame) {j j' : Joint} (w : Vec3) (h : j' ≠ j) :
    (f.setJoint j w).joint j' = f.joint j' := by
  cases j <;> cases j' <;> simp_all [KeyFrame.setJoint, KeyFrame.joint]

theorem updateKeyFrame_joint_axis_self (f : KeyFrame) (part : Joint) (axis : Axis) (v : ℚ) :
    ((updateKeyFrame f part axis v).joint part).axis axis = v := by
  rw [updateKeyFrame, KeyFrame.joint_setJoint_self, Vec3.axis_setAxis_self]

theorem updateKeyFrame_joint_axis_ne (f : KeyFrame) {part part' : Joint} {axis axis' : Axis}
    (v : ℚ) (h : part' ≠ part ∨ axis' ≠ axis) :
    ((updateKeyFrame f part axis v).joint part').axis axis' = (f.joint part').axis axis' := by
  rw [updateKeyFrame]
  by_cases hp : part' = part
  · subst hp
    rw [KeyFrame.joint_setJoint_self]
    rcases h with h | h
    · exact absurd rfl h
    · exact Vec3.axis_setAxis_ne _ _ h
  · rw [KeyFrame.joint_setJoint_ne _ _ hp]

/-- Rebuilding every keyframe field by field is the identity on the
embedded (already plain) data. -/
theorem cleanedFrames_eq (fs : List KeyFrame) : cleanedFrames fs = fs := by
  unfold cleanedFrames
  induction fs with
  | nil => rfl
  | cons f t ih => simp [ih]

theorem getFrame_natCast (fs : List KeyFrame) (i : Nat) :
    getFrame fs (i : Int) = fs[i]? := by
  simp [getFrame]

/-! ### The claims -/

/-- C1.  The `interval` field written into the exported document is the
editor's interval floored and clamped below to `1`; in particular
interval `0` and interval `-5` both export as `1`; and `exportAnimation`
returns the editor state unchanged. -/
theorem export_interval_normalized (dump : ExportDoc → Option String) (s : EditorState) :
    (buildDocument s).animations.map (fun a => a.2.interval) = [max 1 ⌊s.interval⌋]
      ∧ (exportAnimation dump s).1 = s
      ∧ (buildDocument { s with interval := 0 }).animations.map (fun a => a.2.interval) = [1]
      ∧ (buildDocument { s with interval := -5 }).animations.map (fun a => a.2.interval) = [1] := by
  refine ⟨by simp [buildDocument], ?_, by norm_num [buildDocument], by norm_num [buildDocument]⟩
  unfold exportAnimation
  cases dump (buildDocument s) <;> rfl

/-- C2.  Exporting a state with a non-empty keyframe list produces a
document with exactly one animation, keyed by the animation name, whose
`loop` is `true` and whose `steps` equals the editor's keyframe sequence,
hence is non-empty. -/
theorem export_document_shape (s : EditorState) (h : s.frames ≠ []) :
    (buildDocument s).animations
        = [(s.animationName,
            { interval := max 1 ⌊s.interval⌋, loop := true, steps := s.frames })]
      ∧ 0 < s.frames.length := by
  refine ⟨?_, List.length_pos.mpr h⟩
  simp [buildDocument, cleanedFrames_eq]

/-- C2 witness: exporting the initial state — animation `"wave"`,
interval `10`, the single all-zero keyframe — yields
`animations.wave.interval = 10`, `loop = true`, and `steps` with exactly
that one keyframe. -/
theorem export_document_shape_witness :
    (buildDocument initState).animations
        = [("wave", { interval := 10, loop := true, steps := [defaultFrame] })]
      ∧ 0 < initState.frames.length := by
  have h := export_document_shape initState (by decide)
  refine ⟨?_, h.2⟩
  rw [h.1]
  norm_num [initState]

/-- C6.  When the active index is out of range (negative or at least the
length of the keyframe list), the pose consumed for rendering is the
neutral default pose; `frames[currentFrame] || defaultFrame` is total, so
rendering never fails on a missing keyframe. -/
theorem currentFrameData_out_of_range (s : EditorState)
    (h : s.currentFrame < 0 ∨ (s.frames.length : Int) ≤ s.currentFrame) :
    currentFrameData s = defaultFrame := by
  unfold currentFrameData getFrame
  rcases h with h | h
  · rw [if_neg (by omega)]
    rfl
  · by_cases h0 : 0 ≤ s.currentFrame
    · rw [if_pos h0]
      have : s.frames.length ≤ s.currentFrame.toNat := by omega
      simp [List.getElem?_eq_none this]
    · rw [if_neg h0]
      rfl

/-- C6 witness: index 5 into the single-frame initial state renders the
neutral pose. -/
theorem currentFrameData_out_of_range_witness :
    currentFrameData { initState with currentFrame := 5 } = defaultFrame :=
  currentFrameData_out_of_range { initState with currentFrame := 5 } (by right; decide)

/-- C7.  When serialization fails, `exportAnimation` produces no download
and returns the editor state (keyframes, active index, name, interval,
playing flag) exactly as it was: the `catch` block only logs. -/
theorem export_failure_preserves_state (dump : ExportDoc → Option String) (s : EditorState)
    (h : dump (buildDocument s) = none) :
    exportAnimation dump s = (s, none) := by
  unfold exportAnimation
  rw [h]

/-- C7 witness: a serializer that always fails leaves the initial state
untouched and yields no download. -/
theorem export_failure_preserves_state_witness :
    exportAnimation (fun _ => none) initState = (initState, none) :=
  export_failure_preserves_state (fun _ => none) initState rfl

theorem updateCurrentFrame_eq_set (s : EditorState) (i : Nat) (h : i < s.frames.length)
    (hc : s.currentFrame = (i : Int)) (part : Joint) (axis : Axis) (v : ℚ) :
    updateCurrentFrame s part axis v
      = { s with frames := s.frames.set i (updateKeyFrame s.frames[i] part axis v) } := by
  unfold updateCurrentFrame
  rw [hc, getFrame_natCast, List.getElem?_eq_getElem h]
  simp

theorem addKeyFrame_eq_append (s : EditorState) (i : Nat) (h : i < s.frames.length)
    (hc : s.currentFrame = (i : Int)) :
    addKeyFrame s
      = { s with frames := s.frames ++ [s.frames[i]]
                 currentFrame := (s.frames.length : Int) } := by
  unfold addKeyFrame
  rw [hc, getFrame_natCast, List.getElem?_eq_getElem h]
  rfl

theorem updateCurrentFrame_currentFrame (s : EditorState) (part : Joint) (axis : Axis)
    (v : ℚ) : (updateCurrentFrame s part axis v).currentFrame = s.currentFrame := by
  unfold updateCurrentFrame
  cases getFrame s.frames s.currentFrame <;> simp only
  split <;> rfl

theorem updateCurrentFrame_frames (s : EditorState) (i : Nat) (h : i < s.frames.length)
    (hc : s.currentFrame = (i : Int)) (part : Joint) (axis : Axis) (v : ℚ) :
    (updateCurrentFrame s part axis v).frames
      = s.frames.set i (updateKeyFrame s.frames[i] part axis v) := by
  rw [updateCurrentFrame_eq_set s i h hc]

theorem entry_updateCurrentFrame_self (s : EditorState) (i : Nat) (h : i < s.frames.length)
    (hc : s.currentFrame = (i : Int)) (part : Joint) (axis : Axis) (v : ℚ) :
    entry (updateCurrentFrame s part axis v) i part axis = some v := by
  unfold entry
  rw [updateCurrentFrame_frames s i h hc, List.getElem?_set_self (by simpa using h)]
  simp [updateKeyFrame_joint_axis_self]

theorem entry_updateCurrentFrame_other (s : EditorState) (i : Nat) (h : i < s.frames.length)
    (hc : s.currentFrame = (i : Int)) (part : Joint) (axis : Axis) (v : ℚ)
    (i' : Nat) (part' : Joint) (axis' : Axis) (hne : i' ≠ i ∨ part' ≠ part ∨ axis' ≠ axis) :
    entry (updateCurrentFrame s part axis v) i' part' axis' = entry s i' part' axis' := by
  unfold entry
  rw [updateCurrentFrame_frames s i h hc]
  by_cases hi : i' = i
  · subst hi
    rcases hne with hne | hne
    · exact absurd rfl hne
    · rw [List.getElem?_set_self (by simpa using h), List.getElem?_eq_getElem h]
      simp [updateKeyFrame_joint_axis_ne _ v hne]
  · rw [List.getElem?_set_ne (by omega)]

/-- C3.  Updating joint `part`, axis `axis` of the keyframe at an
in-range index `i` writes exactly that one angle: reading it back gives
the written value, the number of keyframes is unchanged, every other
(frame, joint, axis) entry of every keyframe is unchanged, and a second
write to the same entry yields the last written value. -/
theorem updateJoint_effect (s : EditorState) (i : Nat) (part : Joint) (axis : Axis) (v : ℚ)
    (h : i < s.frames.length) :
    entry (updateCurrentFrame (selectFrame s i) part axis v) i part axis = some v
      ∧ (updateCurrentFrame (selectFrame s i) part axis v).frames.length = s.frames.length
      ∧ (∀ (i' : Nat) (part' : Joint) (axis' : Axis),
          i' ≠ i ∨ part' ≠ part ∨ axis' ≠ axis →
          entry (updateCurrentFrame (selectFrame s i) part axis v) i' part' axis'
            = entry s i' part' axis')
      ∧ (∀ w : ℚ,
          entry
            (updateCurrentFrame (updateCurrentFrame (selectFrame s i) part axis v) part axis w)
            i part axis = some w) := by
  have h1 : i < (selectFrame s i).frames.length := h
  refine ⟨entry_updateCurrentFrame_self _ i h1 rfl part axis v, ?_,
    fun i' part' axis' hne => entry_updateCurrentFrame_other _ i h1 rfl part axis v i' part'
      axis' hne, ?_⟩
  · rw [updateCurrentFrame_frames _ i h1 rfl]
    simp only [List.length_set]
    rfl
  · intro w
    have hlen : i < (updateCurrentFrame (selectFrame s i) part axis v).frames.length := by
      rw [updateCurrentFrame_frames _ i h1 rfl]
      simpa using h
    have hcur : (updateCurrentFrame (selectFrame s i) part axis v).currentFrame = (i : Int) :=
      updateCurrentFrame_currentFrame _ part axis v
    exact entry_updateCurrentFrame_self _ i hlen hcur part axis w

/-- C3 witness: writing 45 degrees to the head's x axis of frame 0 of the
initial state reads back as 45. -/
theorem updateJoint_effect_witness :
    entry (updateCurrentFrame (selectFrame initState 0) Joint.head Axis.x 45) 0
        Joint.head Axis.x = some 45 :=
  (updateJoint_effect initState 0 Joint.head Axis.x 45 (by decide)).1

/-- C4.  With the active index at an in-range `i` among `n` keyframes,
`addKeyFrame` yields `n + 1` keyframes, the first `n` unchanged, the last
equal to the keyframe at index `i`, and active index `n`; and updating
any joint of the newly selected copy leaves the source keyframe at `i`
unchanged (the copy shares no mutable state with its source). -/
theorem addKeyFrame_spec (s : EditorState) (i : Nat) (h : i < s.frames.length) :
    (addKeyFrame (selectFrame s i)).frames.length = s.frames.length + 1
      ∧ (addKeyFrame (selectFrame s i)).frames.take s.frames.length = s.frames
      ∧ (addKeyFrame (selectFrame s i)).frames[s.frames.length]? = s.frames[i]?
      ∧ (addKeyFrame (selectFrame s i)).currentFrame = (s.frames.length : Int)
      ∧ (∀ (part : Joint) (axis : Axis) (v : ℚ),
          (updateCurrentFrame (addKeyFrame (selectFrame s i)) part axis v).frames[i]?
            = s.frames[i]?) := by
  have hsel : (selectFrame s i).frames = s.frames := rfl
  have key := addKeyFrame_eq_append (selectFrame s i) i h rfl
  have hfr : (addKeyFrame (selectFrame s i)).frames = s.frames ++ [s.frames[i]] := by
    rw [key]
    rfl
  have hcf : (addKeyFrame (selectFrame s i)).currentFrame = (s.frames.length : Int) := by
    rw [key]
    rfl
  refine ⟨by rw [hfr]; simp, by rw [hfr]; exact List.take_left _ _, ?_, hcf, ?_⟩
  · rw [hfr, List.getElem?_concat_length, List.getElem?_eq_getElem h]
  · intro part axis v
    have hn : s.frames.length < (addKeyFrame (selectFrame s i)).frames.length := by
      rw [hfr]; simp
    have hcf' : (addKeyFrame (selectFrame s i)).currentFrame
        = ((s.frames.length : Nat) : Int) := hcf
    rw [updateCurrentFrame_frames _ s.frames.length hn hcf' part axis v,
      List.getElem?_set_ne (by omega), hfr, List.getElem?_append_left h]

/-- C4 witness: adding a keyframe to the initial state gives two frames,
index 1 active, with the copy equal to frame 0. -/
theorem addKeyFrame_spec_witness :
    (addKeyFrame (selectFrame initState 0)).frames.length = 1 + 1
      ∧ (addKeyFrame (selectFrame initState 0)).frames[1]? = initState.frames[0]? := by
  have h := addKeyFrame_spec initState 0 (by decide)
  exact ⟨h.1, h.2.2.1⟩

/-! ### Playback -/

theorem run_nil (t : SysState) : run t [] = t := rfl

theorem run_cons (t : SysState) (e : Event) (es : List Event) :
    run t (e :: es) = run (step t e) es := rfl

theorem run_append (t : SysState) (es es' : List Event) :
    run t (es ++ es') = run (run t es) es' :=
  List.foldl_append _ _ _ _

theorem ticks_cons (e : Event) (es : List Event) :
    ticks (e :: es) = ticks es + if e = Event.tick then 1 else 0 := by
  simp only [ticks, List.countP_cons]
  cases e <;> simp

theorem ticks_append (es es' : List Event) : ticks (es ++ es') = ticks es + ticks es' := by
  simp [ticks]

theorem ticks_replicate (k : Nat) : ticks (List.replicate k Event.tick) = k := by
  induction k with
  | zero => rfl
  | succ m ih => rw [List.replicate_succ, ticks_cons, ih]; simp

theorem step_tick_of_loop (t : SysState) (j : Int) (n : Nat) (hl : t.loop = some ⟨j, n⟩) :
    step t Event.tick
      = { editor := { t.editor with currentFrame := (j + 1).tmod (n : Int) }
          loop := some ⟨(j + 1).tmod (n : Int), n⟩ } := by
  simp [step, hl, advanceLoop]

theorem step_tick_of_no_loop (t : SysState) (hl : t.loop = none) : step t Event.tick = t := by
  simp [step, hl]

theorem step_loop_of_not_tick (t : SysState) (e : Event) (h1 : e ≠ Event.tick)
    (h2 : e ≠ Event.playPause) : (step t e).loop = t.loop := by
  cases e <;> simp_all [step]

/-- Running events that never press Play/Pause leaves the captured loop
advancing by one modulo its captured length per `tick`: the loop state
only depends on the snapshot and the number of ticks. -/
theorem run_loop_snapshot (es : List Event) : ∀ (t : SysState) (j : Int) (n : Nat),
    (∀ e ∈ es, e ≠ Event.playPause) → t.loop = some ⟨j, n⟩ → 0 ≤ j → j < (n : Int) →
    (run t es).loop = some ⟨(j + (ticks es : Int)) % (n : Int), n⟩ := by
  induction es with
  | nil =>
    intro t j n _ hl h0 h1
    rw [run_nil, hl]
    simp [ticks, Int.emod_eq_of_lt h0 h1]
  | cons e rest ih =>
    intro t j n hne hl h0 h1
    have hnp : e ≠ Event.playPause := hne e (by simp)
    have hne' : ∀ e' ∈ rest, e' ≠ Event.playPause := fun e' he' => hne e' (by simp [he'])
    rw [run_cons]
    by_cases htick : e = Event.tick
    · subst htick
      have heq : (j + 1).tmod (n : Int) = (j + 1) % (n : Int) :=
        Int.tmod_eq_emod (by omega) (by omega)
      have hl' : (step t Event.tick).loop = some ⟨(j + 1) % (n : Int), n⟩ := by
        rw [step_tick_of_loop t j n hl, heq]
      have h0' : 0 ≤ (j + 1) % (n : Int) := Int.emod_nonneg _ (by omega)
      have h1' : (j + 1) % (n : Int) < (n : Int) := Int.emod_lt_of_pos _ (by omega)
      rw [ih (step t Event.tick) _ n hne' hl' h0' h1', ticks_cons]
      simp only [if_pos rfl]
      congr 2
      rw [Int.emod_add_emod]
      push_cast
      ring_nf
    · have hl' : (step t e).loop = some ⟨j, n⟩ := by
        rw [step_loop_of_not_tick t e htick hnp, hl]
      rw [ih (step t e) j n hne' hl' h0 h1, ticks_cons, if_neg htick]
      simp

/-- After the events `es` and one more `tick`, the active index is the
loop's snapshot index advanced by one more than the ticks in `es`. -/
theorem run_trailing_tick (t : SysState) (j : Int) (n : Nat) (es : List Event)
    (hne : ∀ e ∈ es, e ≠ Event.playPause) (hl : t.loop = some ⟨j, n⟩)
    (h0 : 0 ≤ j) (h1 : j < (n : Int)) :
    (run t (es ++ [Event.tick])).editor.currentFrame
      = (j + (ticks es : Int) + 1) % (n : Int) := by
  have hr := run_loop_snapshot es t j n hne hl h0 h1
  rw [run_append]
  have h0' : 0 ≤ (j + (ticks es : Int)) % (n : Int) := Int.emod_nonneg _ (by omega)
  have heq : ((j + (ticks es : Int)) % (n : Int) + 1).tmod (n : Int)
      = ((j + (ticks es : Int)) % (n : Int) + 1) % (n : Int) :=
    Int.tmod_eq_emod (by omega) (by omega)
  rw [show run (run t es) [Event.tick] = step (run t es) Event.tick from rfl,
    step_tick_of_loop _ _ _ hr]
  simp only [heq]
  rw [Int.emod_add_emod]

/-- Starting playback captures the current index and frame count. -/
theorem step_play_start (s : SysState) (hplay : s.editor.isPlaying = false) :
    (step s Event.playPause).loop
      = some ⟨s.editor.currentFrame, s.editor.frames.length⟩ := by
  simp [step, hplay]

/-- C5.  With `n` keyframes and active index `i` in range, starting
playback makes the first advance set the index to `(i + 1) % n`, and
after exactly `n` advances the active index returns to `i`. -/
theorem playback_cycle (s : SysState) (i : Int) (n : Nat)
    (hplay : s.editor.isPlaying = false)
    (hcf : s.editor.currentFrame = i) (hlen : s.editor.frames.length = n)
    (h0 : 0 ≤ i) (h1 : i < (n : Int)) :
    (step (step s Event.playPause) Event.tick).editor.currentFrame = (i + 1) % (n : Int)
      ∧ (run (step s Event.playPause) (List.replicate n Event.tick)).editor.currentFrame
          = i := by
  have hstart : (step s Event.playPause).loop = some ⟨i, n⟩ := by
    rw [step_play_start s hplay, hcf, hlen]
  constructor
  · rw [step_tick_of_loop _ _ _ hstart]
    simp only
    exact Int.tmod_eq_emod (by omega) (by omega)
  · obtain ⟨m, rfl⟩ : ∃ m, n = m + 1 := ⟨n - 1, by omega⟩
    rw [List.replicate_succ']
    rw [run_trailing_tick (step s Event.playPause) i (m + 1) (List.replicate m Event.tick)
      (by simp) hstart h0 h1]
    rw [ticks_replicate]
    push_cast
    have : i + (m : Int) + 1 = i + ((m : Int) + 1) * 1 := by ring
    rw [this, Int.add_mul_emod_self_left]
    exact Int.emod_eq_of_lt h0 (by push_cast at h1; omega)

/-- C5 witness: two keyframes, starting at index 1: the first advance
goes to index 0, and after two advances the index is back at 1. -/
theorem playback_cycle_witness :
    (step (step
        { editor := { frames := [defaultFrame, defaultFrame], currentFrame := 1,
                      animationName := "wave", interval := 10, isPlaying := false },
          loop := none } Event.playPause) Event.tick).editor.currentFrame = (1 + 1) % (2 : Int)
      ∧ (run (step
        { editor := { frames := [defaultFrame, defaultFrame], currentFrame := 1,
                      animationName := "wave", interval := 10, isPlaying := false },
          loop := none } Event.playPause)
          (List.replicate 2 Event.tick)).editor.currentFrame = 1 :=
  playback_cycle _ 1 2 rfl rfl (by decide) (by decide) (by decide)

/-- C8.  Pressing Play/Pause while playing cancels the pending scheduled
advance: any number of subsequent refresh callbacks leaves the whole
system state as it was at the stop, and in particular the active index
one refresh interval after stopping equals the active index at the
moment of stopping. -/
theorem stop_cancels_pending (s : SysState) (k : Nat) (h : s.editor.isPlaying = true) :
    run (step s Event.playPause) (List.replicate k Event.tick) = step s Event.playPause
      ∧ (step (step s Event.playPause) Event.tick).editor.currentFrame
          = s.editor.currentFrame := by
  have hstop : (step s Event.playPause).loop = none := by
    simp [step, h]
  have hfix : step (step s Event.playPause) Event.tick = step s Event.playPause :=
    step_tick_of_no_loop _ hstop
  constructor
  · induction k with
    | zero => rfl
    | succ m ih => rw [List.replicate_succ, run_cons, hfix, ih]
  · rw [hfix]
    simp [step, h]

/-- C8 witness: stopping a playing two-frame editor and letting one
refresh interval pass leaves the active index at its value at the stop. -/
theorem stop_cancels_pending_witness :
    (step (step
        { editor := { frames := [defaultFrame, defaultFrame], currentFrame := 1,
                      animationName := "wave", interval := 10, isPlaying := true },
          loop := some { frameIndex := 1, len := 2 } } Event.playPause)
      Event.tick).editor.currentFrame = 1 :=
  (stop_cancels_pending _ 1 rfl).2

theorem step_frames_pos (t : SysState) (e : Event)
    (h : 0 < t.editor.frames.length) : 0 < (step t e).editor.frames.length := by
  cases e with
  | updateJoint part axis v =>
    show 0 < (updateCurrentFrame t.editor part axis v).frames.length
    unfold updateCurrentFrame
    cases getFrame t.editor.frames t.editor.currentFrame with
    | some f => simpa using h
    | none =>
      simp only
      split
      · simp
      · exact h
  | addKey =>
    show 0 < (addKeyFrame t.editor).frames.length
    simp [addKeyFrame]
  | selectFrame i => exact h
  | doExport => exact h
  | playPause =>
    simp only [step]
    split <;> exact h
  | tick =>
    simp only [step]
    cases t.loop <;> simp only <;> exact h

/-- C9.  The keyframe sequence is non-empty in every reachable state:
the initial state holds exactly one neutral keyframe, and running any
sequence of events (select, joint update, add keyframe, export,
play/pause, refresh tick) keeps at least one keyframe, so the
modulo-length playback advance is always taken on a positive length. -/
theorem frames_nonempty_invariant :
    initSys.editor.frames = [defaultFrame]
      ∧ ∀ es : List Event, 0 < (run initSys es).editor.frames.length := by
  refine ⟨rfl, ?_⟩
  have general : ∀ (es : List Event) (t : SysState),
      0 < t.editor.frames.length → 0 < (run t es).editor.frames.length := by
    intro es
    induction es with
    | nil => intro t h; exact h
    | cons e rest ih =>
      intro t h
      rw [run_cons]
      exact ih (step t e) (step_frames_pos t e h)
  intro es
  exact general es initSys (by decide)

/-- C10.  Playback is driven entirely by the snapshot taken when it
starts: starting at index `i0` with `n0` keyframes, after the events
`es` (any mix of select, update, add-keyframe, export and ticks, with no
further Play/Pause press) the loop still carries the captured length
`n0` and index `(i0 + ticks es) % n0`, and the active index right after
one more advance is `(i0 + ticks (es ++ [tick])) % n0` — frames appended
during playback are never visited by the running loop. -/
theorem playback_snapshot (s : SysState) (i0 : Int) (n0 : Nat) (es : List Event)
    (hplay : s.editor.isPlaying = false)
    (hcf : s.editor.currentFrame = i0) (hlen : s.editor.frames.length = n0)
    (h0 : 0 ≤ i0) (h1 : i0 < (n0 : Int))
    (hne : ∀ e ∈ es, e ≠ Event.playPause) :
    (run (step s Event.playPause) es).loop
        = some ⟨(i0 + (ticks es : Int)) % (n0 : Int), n0⟩
      ∧ (run (step s Event.playPause) (es ++ [Event.tick])).editor.currentFrame
          = (i0 + (ticks (es ++ [Event.tick]) : Int)) % (n0 : Int) := by
  have hstart : (step s Event.playPause).loop = some ⟨i0, n0⟩ := by
    rw [step_play_start s hplay, hcf, hlen]
  refine ⟨run_loop_snapshot es _ i0 n0 hne hstart h0 h1, ?_⟩
  rw [run_trailing_tick (step s Event.playPause) i0 n0 es hne hstart h0 h1,
    ticks_append, show ticks [Event.tick] = 1 from rfl]
  push_cast
  ring_nf

/-- C10 witness: with two keyframes and index 0, adding a keyframe and
re-selecting frame 0 during playback does not disturb the loop: after
its second advance the active index is `(0 + 2) % 2 = 0`, and the loop
still carries the captured length 2, not 3. -/
theorem playback_snapshot_witness :
    (run (step
        { editor := { frames := [defaultFrame, defaultFrame], currentFrame := 0,
                      animationName := "wave", interval := 10, isPlaying := false },
          loop := none } Event.playPause)
        ([Event.addKey, Event.selectFrame 0, Event.tick] ++ [Event.tick])).editor.currentFrame
        = 0
      ∧ (run (step
        { editor := { frames := [defaultFrame, defaultFrame], currentFrame := 0,
                      animationName := "wave", interval := 10, isPlaying := false },
          loop := none } Event.playPause)
        [Event.addKey, Event.selectFrame 0, Event.tick]).loop
        = some { frameIndex := 1, len := 2 } := by
  have h := playback_snapshot
    { editor := { frames := [defaultFrame, defaultFrame], currentFrame := 0,
                  animationName := "wave", interval := 10, isPlaying := false },
      loop := none } 0 2 [Event.addKey, Event.selectFrame 0, Event.tick]
    rfl rfl (by decide) (by decide) (by decide) (by decide)
  refine ⟨?_, ?_⟩
  · rw [h.2]
    decide
  · rw [h.1]
    decide

end Animate
